import Mathlib

/-!
# Emma Task: task state, persistence and weekly schedule

A shallow embedding of `src/js/script.js`.  The functions of the program are
embedded as functions on an explicit `State`; the pieces of the JavaScript
platform they call (`String.prototype.trim`, `JSON.stringify`, `JSON.parse`,
`localStorage`, `Date`) are embedded from ECMA-262.

JavaScript strings are sequences of UTF-16 code units, embedded as `List Nat`.
-/

namespace EmmaTask

/-! ## Strings -/

/-- A JavaScript string, as its sequence of UTF-16 code units. -/
abbrev JsString := List Nat

/-- UTF-16 encoding of one Unicode scalar value. -/
def utf16 (c : Char) : List Nat :=
  if c.toNat < 0x10000 then [c.toNat]
  else [0xD800 + (c.toNat - 0x10000) / 0x400, 0xDC00 + (c.toNat - 0x10000) % 0x400]

/-- The JavaScript string written as the literal `s`. -/
def js (s : String) : JsString :=
  (s.toList.map utf16).flatten

/-- ECMA-262 `WhiteSpace` and `LineTerminator` code points: what `trim` strips. -/
def isWhiteSpace (c : Nat) : Bool :=
  c == 0x09 || c == 0x0A || c == 0x0B || c == 0x0C || c == 0x0D || c == 0x20 ||
  c == 0xA0 || c == 0x1680 || (0x2000 ≤ c && c ≤ 0x200A) || c == 0x2028 ||
  c == 0x2029 || c == 0x202F || c == 0x205F || c == 0x3000 || c == 0xFEFF

/-- Embedding of `String.prototype.trim`: strip white space from both ends. -/
def trim (s : JsString) : JsString :=
  ((s.dropWhile isWhiteSpace).reverse.dropWhile isWhiteSpace).reverse

/-- Decimal digits of a natural number, most significant first; `fuel` bounds the
number of digits produced. -/
def decimalDigits : Nat → Nat → List Nat → List Nat
  | 0, _, acc => acc
  | fuel + 1, n, acc =>
    if n < 10 then (0x30 + n) :: acc
    else decimalDigits fuel (n / 10) ((0x30 + n % 10) :: acc)

/-- Embedding of `Number.prototype.toString` on an integer time value (below `10^21`, where the
result is the plain decimal numeral). -/
def numberToString (n : Int) : JsString :=
  if n < 0 then 0x2D :: decimalDigits 32 n.natAbs [] else decimalDigits 32 n.natAbs []

/-! ## Errors -/

/-- The exceptions the embedded code can raise.  `outOfFuel` is not a JavaScript
exception: it marks a run of the fuel-bounded JSON parser that was cut short. -/
inductive JsError where
  | syntaxError
  | typeError
  | rangeError
  | outOfFuel
  deriving DecidableEq

/-! ## JSON values -/

/-- A JavaScript value as produced by `JSON.parse`.  A number is kept as its
lexeme (its floating-point value is not interpreted); an object is the list of its
members in order of first occurrence. -/
inductive Json where
  | null
  | bool (b : Bool)
  | num (lexeme : JsString)
  | str (s : JsString)
  | arr (items : List Json)
  | obj (members : List (JsString × Json))

/-- Four lowercase hexadecimal digits of a code unit. -/
def hexDigit (d : Nat) : Nat :=
  if d < 10 then 0x30 + d else 0x61 + (d - 10)

/-- Embedding of `UnicodeEscape`: a backslash, `u` and four lowercase hexadecimal digits. -/
def unicodeEscape (c : Nat) : JsString :=
  [0x5C, 0x75, hexDigit (c / 4096 % 16), hexDigit (c / 256 % 16), hexDigit (c / 16 % 16),
    hexDigit (c % 16)]

/-- Leading (high) surrogate code unit. -/
def isLeadingSurrogate (c : Nat) : Bool := 0xD800 ≤ c && c ≤ 0xDBFF

/-- Trailing (low) surrogate code unit. -/
def isTrailingSurrogate (c : Nat) : Bool := 0xDC00 ≤ c && c ≤ 0xDFFF

/-- One code point that is not part of a surrogate pair, as `QuoteJSONString`
(ECMA-262 25.5.2.3) writes it: the two-character escapes of the table,
`UnicodeEscape` for other control characters and for unpaired surrogates, every
other code unit as is. -/
def quoteUnit (c : Nat) : JsString :=
  if c = 0x08 then [0x5C, 0x62]
  else if c = 0x09 then [0x5C, 0x74]
  else if c = 0x0A then [0x5C, 0x6E]
  else if c = 0x0C then [0x5C, 0x66]
  else if c = 0x0D then [0x5C, 0x72]
  else if c = 0x22 then [0x5C, 0x22]
  else if c = 0x5C then [0x5C, 0x5C]
  else if c < 0x20 then unicodeEscape c
  else if isLeadingSurrogate c || isTrailingSurrogate c then unicodeEscape c
  else [c]

/-- The body of `QuoteJSONString`, without the enclosing quotation marks: a
leading surrogate followed by a trailing one is a code point written as is. -/
def quoteBody : JsString → JsString
  | [] => []
  | [c] => quoteUnit c
  | c :: d :: rest =>
    if isLeadingSurrogate c && isTrailingSurrogate d then c :: d :: quoteBody rest
    else quoteUnit c ++ quoteBody (d :: rest)

/-- Embedding of `QuoteJSONString`. -/
def quoteJSONString (s : JsString) : JsString :=
  0x22 :: (quoteBody s ++ [0x22])

mutual
/-- Embedding of `JSON.stringify` of a value, without indentation (`SerializeJSONProperty`). -/
def stringifyValue : Json → JsString
  | .null => js "null"
  | .bool true => js "true"
  | .bool false => js "false"
  | .num lexeme => lexeme
  | .str s => quoteJSONString s
  | .arr items => 0x5B :: (stringifyItems items ++ [0x5D])
  | .obj members => 0x7B :: (stringifyMembers members ++ [0x7D])
/-- The elements of an array, separated by commas (`SerializeJSONArray`). -/
def stringifyItems : List Json → JsString
  | [] => []
  | [v] => stringifyValue v
  | v :: w :: rest => stringifyValue v ++ 0x2C :: stringifyItems (w :: rest)
/-- The members of an object, separated by commas (`SerializeJSONObject`). -/
def stringifyMembers : List (JsString × Json) → JsString
  | [] => []
  | [(k, v)] => quoteJSONString k ++ 0x3A :: stringifyValue v
  | (k, v) :: m :: rest =>
    quoteJSONString k ++ 0x3A :: stringifyValue v ++ 0x2C :: stringifyMembers (m :: rest)
end

/-- JSON white space: tab, line feed, carriage return, space. -/
def isJsonWs (c : Nat) : Bool :=
  c == 0x09 || c == 0x0A || c == 0x0D || c == 0x20

/-- Skip JSON white space. -/
def skipWs (cs : JsString) : JsString := cs.dropWhile isJsonWs

/-- Value of a hexadecimal digit, if the code unit is one. -/
def hexVal (c : Nat) : Option Nat :=
  if 0x30 ≤ c ∧ c ≤ 0x39 then some (c - 0x30)
  else if 0x61 ≤ c ∧ c ≤ 0x66 then some (c - 0x61 + 10)
  else if 0x41 ≤ c ∧ c ≤ 0x46 then some (c - 0x41 + 10)
  else none

/-- The code unit written by four hexadecimal digits. -/
def hex4 (a b c d : Nat) : Option Nat :=
  match hexVal a, hexVal b, hexVal c, hexVal d with
  | some x, some y, some z, some w => some (x * 4096 + y * 256 + z * 16 + w)
  | _, _, _, _ => none

/-- The characters of a JSON string after its opening quotation mark, up to and
including the closing one; `acc` is what has been read so far. -/
def parseStringBody : JsString → JsString → Except JsError (JsString × JsString)
  | [], _ => .error .syntaxError
  | c :: rest, acc =>
    if c = 0x22 then .ok (acc, rest)
    else if c = 0x5C then
      match rest with
      | [] => .error .syntaxError
      | e :: rest2 =>
        if e = 0x22 then parseStringBody rest2 (acc ++ [0x22])
        else if e = 0x5C then parseStringBody rest2 (acc ++ [0x5C])
        else if e = 0x2F then parseStringBody rest2 (acc ++ [0x2F])
        else if e = 0x62 then parseStringBody rest2 (acc ++ [0x08])
        else if e = 0x66 then parseStringBody rest2 (acc ++ [0x0C])
        else if e = 0x6E then parseStringBody rest2 (acc ++ [0x0A])
        else if e = 0x72 then parseStringBody rest2 (acc ++ [0x0D])
        else if e = 0x74 then parseStringBody rest2 (acc ++ [0x09])
        else if e = 0x75 then
          match rest2 with
          | h1 :: h2 :: h3 :: h4 :: rest3 =>
            match hex4 h1 h2 h3 h4 with
            | some u => parseStringBody rest3 (acc ++ [u])
            | none => .error .syntaxError
          | _ => .error .syntaxError
        else .error .syntaxError
    else if c < 0x20 then .error .syntaxError
    else parseStringBody rest (acc ++ [c])

/-- Decimal digit code unit. -/
def isDigit (c : Nat) : Bool := 0x30 ≤ c && c ≤ 0x39

/-- Split off the longest prefix of decimal digits. -/
def spanDigits (cs : JsString) : JsString × JsString :=
  (cs.takeWhile isDigit, cs.dropWhile isDigit)

/-- The integer part of a JSON number: `0`, or a non-zero digit followed by digits. -/
def parseIntPart (cs : JsString) : Option (JsString × JsString) :=
  match cs with
  | [] => none
  | c :: rest =>
    if c = 0x30 then some ([c], rest)
    else if isDigit c then some (c :: (spanDigits rest).1, (spanDigits rest).2)
    else none

/-- The optional fraction of a JSON number: a point followed by at least one digit. -/
def parseFracPart (cs : JsString) : Option (JsString × JsString) :=
  match cs with
  | c :: rest =>
    if c = 0x2E then
      (if (spanDigits rest).1 = [] then none
       else some (c :: (spanDigits rest).1, (spanDigits rest).2))
    else some ([], cs)
  | [] => some ([], cs)

/-- The digits of an exponent, after `e` and the optional sign. -/
def parseExpDigits (pre cs : JsString) : Option (JsString × JsString) :=
  if (spanDigits cs).1 = [] then none else some (pre ++ (spanDigits cs).1, (spanDigits cs).2)

/-- The optional exponent of a JSON number. -/
def parseExpPart (cs : JsString) : Option (JsString × JsString) :=
  match cs with
  | c :: rest =>
    if c = 0x65 ∨ c = 0x45 then
      match rest with
      | s :: rest2 =>
        if s = 0x2B ∨ s = 0x2D then parseExpDigits [c, s] rest2 else parseExpDigits [c] rest
      | [] => none
    else some ([], cs)
  | [] => some ([], cs)

/-- A JSON number without its sign. -/
def parseUnsigned (cs : JsString) : Option (JsString × JsString) :=
  match parseIntPart cs with
  | none => none
  | some (i, r1) =>
    match parseFracPart r1 with
    | none => none
    | some (f, r2) =>
      match parseExpPart r2 with
      | none => none
      | some (e, r3) => some (i ++ f ++ e, r3)

/-- A JSON number: its lexeme and the rest of the input. -/
def parseNumber (cs : JsString) : Option (JsString × JsString) :=
  match cs with
  | c :: rest =>
    if c = 0x2D then
      match parseUnsigned rest with
      | some (l, r) => some (c :: l, r)
      | none => none
    else parseUnsigned cs
  | [] => none

/-- Strip the prefix `p` from `cs`, if it is there. -/
def stripLit (p cs : JsString) : Option JsString :=
  if p.isPrefixOf cs then some (cs.drop p.length) else none

/-- Embedding of `CreateDataProperty` on the member list of an object under construction: a
repeated key keeps its place and takes the new value. -/
def setMember (k : JsString) (v : Json) : List (JsString × Json) → List (JsString × Json)
  | [] => [(k, v)]
  | (k2, v2) :: rest => if k2 = k then (k, v) :: rest else (k2, v2) :: setMember k v rest

mutual
/-- A JSON value, with leading white space; returns the value and the rest of the
input.  Each nested call spends one unit of fuel. -/
def parseValue : Nat → JsString → Except JsError (Json × JsString)
  | 0, _ => .error .outOfFuel
  | fuel + 1, cs =>
    match skipWs cs with
    | [] => .error .syntaxError
    | c :: rest =>
      if c = 0x7B then
        match skipWs rest with
        | d :: rest2 => if d = 0x7D then .ok (.obj [], rest2) else parseMembers fuel [] rest
        | [] => .error .syntaxError
      else if c = 0x5B then
        match skipWs rest with
        | d :: rest2 => if d = 0x5D then .ok (.arr [], rest2) else parseItems fuel [] rest
        | [] => .error .syntaxError
      else if c = 0x22 then
        match parseStringBody rest [] with
        | .ok (s, rest2) => .ok (.str s, rest2)
        | .error e => .error e
      else
        match stripLit (js "true") (c :: rest) with
        | some rest2 => .ok (.bool true, rest2)
        | none =>
          match stripLit (js "false") (c :: rest) with
          | some rest2 => .ok (.bool false, rest2)
          | none =>
            match stripLit (js "null") (c :: rest) with
            | some rest2 => .ok (.null, rest2)
            | none =>
              match parseNumber (c :: rest) with
              | some (l, rest2) => .ok (.num l, rest2)
              | none => .error .syntaxError
/-- The elements of a non-empty array, up to and including the closing bracket. -/
def parseItems : Nat → List Json → JsString → Except JsError (Json × JsString)
  | 0, _, _ => .error .outOfFuel
  | fuel + 1, acc, cs =>
    match parseValue fuel cs with
    | .error e => .error e
    | .ok (v, rest) =>
      match skipWs rest with
      | c :: rest2 =>
        if c = 0x2C then parseItems fuel (acc ++ [v]) rest2
        else if c = 0x5D then .ok (.arr (acc ++ [v]), rest2)
        else .error .syntaxError
      | [] => .error .syntaxError
/-- The members of a non-empty object, up to and including the closing brace. -/
def parseMembers : Nat → List (JsString × Json) → JsString → Except JsError (Json × JsString)
  | 0, _, _ => .error .outOfFuel
  | fuel + 1, acc, cs =>
    match skipWs cs with
    | q :: rest =>
      if q = 0x22 then
        match parseStringBody rest [] with
        | .error e => .error e
        | .ok (k, rest2) =>
          match skipWs rest2 with
          | colon :: rest3 =>
            if colon = 0x3A then
              match parseValue fuel rest3 with
              | .error e => .error e
              | .ok (v, rest4) =>
                match skipWs rest4 with
                | c :: rest5 =>
                  if c = 0x2C then parseMembers fuel (setMember k v acc) rest5
                  else if c = 0x7D then .ok (.obj (setMember k v acc), rest5)
                  else .error .syntaxError
                | [] => .error .syntaxError
            else .error .syntaxError
          | [] => .error .syntaxError
      else .error .syntaxError
    | [] => .error .syntaxError
end

/-- Embedding of `JSON.parse(text)` with no reviver: one JSON value, optionally surrounded by
white space, and nothing else; anything else is a `SyntaxError`. -/
def JSON.parse (text : JsString) : Except JsError Json :=
  match parseValue (2 * text.length + 2) text with
  | .error e => .error e
  | .ok (v, rest) => if skipWs rest = [] then .ok v else .error .syntaxError

/-- Embedding of `JSON.stringify(value)` for a value made of JSON data. -/
def JSON.stringify (v : Json) : JsString := stringifyValue v

/-! ## Tasks and application state -/

/-- A task object `{id, text, completed, [date]}`; `date` is absent on the tasks
of the general list. -/
structure Task where
  id : JsString
  text : JsString
  completed : Bool
  date : Option JsString
  deriving DecidableEq

/-- The task as a JavaScript object, its properties in the order in which
`addGeneralTask` and `addDailyTask` write them. -/
def Task.toJson (t : Task) : Json :=
  match t.date with
  | none => .obj [(js "id", .str t.id), (js "text", .str t.text), (js "completed", .bool t.completed)]
  | some d =>
    .obj [(js "id", .str t.id), (js "text", .str t.text), (js "date", .str d),
      (js "completed", .bool t.completed)]

/-- A task array as a JavaScript value. -/
def tasksToJson (ts : List Task) : Json := .arr (ts.map Task.toJson)

/-- The `localStorage` area: string keys to string values. -/
abbrev Storage := JsString → Option JsString

/-- Embedding of `localStorage.setItem`. -/
def setItem (st : Storage) (key value : JsString) : Storage :=
  fun k => if k = key then some value else st k

/-- Replace what the document holds under one element id. -/
def setElem {α : Type} (m : JsString → Option α) (elemId : JsString) (v : α) :
    JsString → Option α :=
  fun k => if k = elemId then some v else m k

/-- The two global task arrays, the storage area, and the part of the document
the task functions read and write: the value of the general input, the values of
the day inputs (by element id), what is rendered in the general list and in the
day lists (by element id), and the alerts shown so far. -/
structure State where
  generalTasks : List Task
  dailyTasks : List Task
  storage : Storage
  generalInput : JsString
  dayInputs : JsString → Option JsString
  generalList : List Task
  dayLists : JsString → Option (List Task)
  alerts : List JsString

/-- Storage key of the general list. -/
def GENERAL_TASKS_KEY : JsString := js "emmaTasksGeneral"

/-- Storage key of the schedule. -/
def DAILY_TASKS_KEY : JsString := js "emmaDailyTasks"

/-- Day names, Sunday first. -/
def WEEK_DAYS : List JsString :=
  [js "Sunday", js "Monday", js "Tuesday", js "Wednesday", js "Thursday", js "Friday",
    js "Saturday"]

/-- Text of the validation alert. -/
def VALIDATION_MESSAGE : JsString := js "Please enter a valid task."

/-! ## Persistence -/

/-- Embedding of `saveTasks(key, tasksArray)`: store the serialised array under `key`. -/
def saveTasks (key : JsString) (tasksArray : List Task) (storage : Storage) : Storage :=
  setItem storage key (JSON.stringify (tasksToJson tasksArray))

/-- Embedding of `loadTasks(key)`: the parsed stored value, or an empty array when `getItem`
gives `null` or the empty string (the falsy strings). -/
def loadTasks (storage : Storage) (key : JsString) : Except JsError Json :=
  match storage key with
  | none => .ok (.arr [])
  | some savedTasks => if savedTasks = [] then .ok (.arr []) else JSON.parse savedTasks

/-! ## General list -/

/-- Embedding of `renderGeneralTasks()`: the general list shows the general tasks. -/
def renderGeneralTasks (s : State) : State :=
  { s with generalList := s.generalTasks }

/-- Embedding of `Array.prototype.findIndex`, counting from `i`: the index of the first
element that satisfies `p`, or `-1`. -/
def findIndexFrom {α : Type} (p : α → Bool) : List α → Int → Int
  | [], _ => -1
  | x :: xs, i => if p x then i else findIndexFrom p xs (i + 1)

/-- Embedding of `Array.prototype.findIndex`. -/
def findIndex {α : Type} (p : α → Bool) (l : List α) : Int := findIndexFrom p l 0

/-- The in-place assignment `tasks[i].completed = !tasks[i].completed`. -/
def toggleAt : List Task → Nat → List Task
  | [], _ => []
  | t :: ts, 0 => { t with completed := !t.completed } :: ts
  | t :: ts, i + 1 => t :: toggleAt ts i

/-- Embedding of `addGeneralTask()`, with `now` the value of `Date.now()`. -/
def addGeneralTask (now : Int) (s : State) : State :=
  let text := trim s.generalInput
  if text = [] then { s with alerts := s.alerts ++ [VALIDATION_MESSAGE] }
  else
    let newId := numberToString now
    let newTask : Task := { id := newId, text := text, completed := false, date := none }
    let s1 := { s with generalTasks := s.generalTasks ++ [newTask] }
    let s2 := { s1 with storage := saveTasks GENERAL_TASKS_KEY s1.generalTasks s1.storage }
    let s3 := renderGeneralTasks s2
    { s3 with generalInput := [] }

/-- Embedding of `toggleGeneralTask(id)`. -/
def toggleGeneralTask (id : JsString) (s : State) : State :=
  let taskIndex := findIndex (fun t : Task => t.id == id) s.generalTasks
  if taskIndex > -1 then
    let s1 := { s with generalTasks := toggleAt s.generalTasks taskIndex.toNat }
    let s2 := { s1 with storage := saveTasks GENERAL_TASKS_KEY s1.generalTasks s1.storage }
    renderGeneralTasks s2
  else s

/-- Embedding of `deleteGeneralTask(id)`. -/
def deleteGeneralTask (id : JsString) (s : State) : State :=
  let s1 := { s with generalTasks := s.generalTasks.filter (fun t => t.id != id) }
  let s2 := { s1 with storage := saveTasks GENERAL_TASKS_KEY s1.generalTasks s1.storage }
  renderGeneralTasks s2

/-! ## Daily schedule -/

/-- The filter of `renderDailyTasksByDate`: `dailyTasks.filter(t => t.date === dateId)`.
The argument is `none` when the caller passes `undefined` (the `date` of a task
without one). -/
def tasksForDay (dailyTasks : List Task) (dateId : Option JsString) : List Task :=
  dailyTasks.filter (fun t => t.date == dateId)

/-- A value interpolated in a template literal. -/
def templateValue (v : Option JsString) : JsString :=
  match v with
  | some x => x
  | none => js "undefined"

/-- Embedding of `renderDailyTasksByDate(dateId)`: nothing when the document has no list for
the date, otherwise that list shows the tasks of the date. -/
def renderDailyTasksByDate (dateId : Option JsString) (s : State) : State :=
  let elemId := js "list-" ++ templateValue dateId
  match s.dayLists elemId with
  | none => s
  | some _ => { s with dayLists := setElem s.dayLists elemId (tasksForDay s.dailyTasks dateId) }

/-- Embedding of `addDailyTask(dateId)`, with `now` the value of `Date.now()`.  Reading
`input.value` raises a `TypeError` when the document has no input for the date. -/
def addDailyTask (now : Int) (dateId : JsString) (s : State) : Except JsError State :=
  match s.dayInputs (js "input-" ++ dateId) with
  | none => .error .typeError
  | some value =>
    let text := trim value
    if text = [] then .ok s
    else
      let newTask : Task :=
        { id := numberToString now, text := text, date := some dateId, completed := false }
      let s1 := { s with dailyTasks := s.dailyTasks ++ [newTask] }
      let s2 := { s1 with storage := saveTasks DAILY_TASKS_KEY s1.dailyTasks s1.storage }
      let s3 := renderDailyTasksByDate (some dateId) s2
      .ok { s3 with dayInputs := setElem s3.dayInputs (js "input-" ++ dateId) [] }

/-- Embedding of `toggleDailyTask(id)`.  An index that `findIndex` returned is in range, so the
`none` branch of the element access is never taken. -/
def toggleDailyTask (id : JsString) (s : State) : State :=
  let taskIndex := findIndex (fun t : Task => t.id == id) s.dailyTasks
  if taskIndex > -1 then
    match s.dailyTasks[taskIndex.toNat]? with
    | none => s
    | some task =>
      let s1 := { s with dailyTasks := toggleAt s.dailyTasks taskIndex.toNat }
      let s2 := { s1 with storage := saveTasks DAILY_TASKS_KEY s1.dailyTasks s1.storage }
      renderDailyTasksByDate task.date s2
  else s

/-- Embedding of `deleteDailyTask(id)`. -/
def deleteDailyTask (id : JsString) (s : State) : State :=
  match s.dailyTasks.find? (fun t => t.id == id) with
  | none => s
  | some taskToDelete =>
    let s1 := { s with dailyTasks := s.dailyTasks.filter (fun t => t.id != id) }
    let s2 := { s1 with storage := saveTasks DAILY_TASKS_KEY s1.dailyTasks s1.storage }
    renderDailyTasksByDate taskToDelete.date s2

/-! ## Dates (ECMA-262, Date objects) -/

/-- Milliseconds per day. -/
def msPerDay : Int := 86400000

/-- Embedding of `Day(t)`: the day number of a time value. -/
def Day (t : Int) : Int := t / msPerDay

/-- Embedding of `TimeWithinDay(t)`. -/
def TimeWithinDay (t : Int) : Int := t % msPerDay

/-- Embedding of `DaysInYear(y)`. -/
def DaysInYear (y : Int) : Int :=
  if y % 4 ≠ 0 then 365 else if y % 100 ≠ 0 then 366 else if y % 400 ≠ 0 then 365 else 366

/-- Embedding of `DayFromYear(y)`: the day number of the first day of year `y`. -/
def DayFromYear (y : Int) : Int :=
  365 * (y - 1970) + (y - 1969) / 4 - (y - 1901) / 100 + (y - 1601) / 400

/-- Embedding of `TimeFromYear(y)`. -/
def TimeFromYear (y : Int) : Int := msPerDay * DayFromYear y

/-- Embedding of `YearFromTime(t)`: the largest `y` with `TimeFromYear(y) ≤ t`, found from the
mean-year estimate, which is off by at most one. -/
def YearFromTime (t : Int) : Int :=
  let y0 := 1970 + Day t * 400 / 146097
  if TimeFromYear y0 > t then y0 - 1
  else if TimeFromYear (y0 + 1) ≤ t then y0 + 1
  else y0

/-- Embedding of `InLeapYear(t)`, as 0 or 1. -/
def InLeapYear (t : Int) : Int :=
  if DaysInYear (YearFromTime t) = 366 then 1 else 0

/-- Embedding of `DayWithinYear(t)`. -/
def DayWithinYear (t : Int) : Int := Day t - DayFromYear (YearFromTime t)

/-- Day within the year on which month `m` (0 to 11) starts, `leap` being 0 or 1. -/
def monthStart (m leap : Int) : Int :=
  if m = 0 then 0 else if m = 1 then 31 else if m = 2 then 59 + leap
  else if m = 3 then 90 + leap else if m = 4 then 120 + leap else if m = 5 then 151 + leap
  else if m = 6 then 181 + leap else if m = 7 then 212 + leap else if m = 8 then 243 + leap
  else if m = 9 then 273 + leap else if m = 10 then 304 + leap else 334 + leap

/-- Embedding of `MonthFromTime(t)`, 0 to 11. -/
def MonthFromTime (t : Int) : Int :=
  let d := DayWithinYear t
  let l := InLeapYear t
  if d < 31 then 0 else if d < 59 + l then 1 else if d < 90 + l then 2
  else if d < 120 + l then 3 else if d < 151 + l then 4 else if d < 181 + l then 5
  else if d < 212 + l then 6 else if d < 243 + l then 7 else if d < 273 + l then 8
  else if d < 304 + l then 9 else if d < 334 + l then 10 else 11

/-- Embedding of `DateFromTime(t)`, 1 to 31. -/
def DateFromTime (t : Int) : Int :=
  DayWithinYear t - monthStart (MonthFromTime t) (InLeapYear t) + 1

/-- Embedding of `WeekDay(t)`, 0 for Sunday. -/
def WeekDay (t : Int) : Int := (Day t + 4) % 7

/-- Embedding of `HourFromTime(t)`. -/
def HourFromTime (t : Int) : Int := t / 3600000 % 24

/-- Embedding of `MinFromTime(t)`. -/
def MinFromTime (t : Int) : Int := t / 60000 % 60

/-- Embedding of `SecFromTime(t)`. -/
def SecFromTime (t : Int) : Int := t / 1000 % 60

/-- Embedding of `msFromTime(t)`. -/
def msFromTime (t : Int) : Int := t % 1000

/-- Embedding of `MakeDay(year, month, date)` on integers. -/
def MakeDay (year month date : Int) : Int :=
  let ym := year + month / 12
  let mn := month % 12
  DayFromYear ym + monthStart mn (if DaysInYear ym = 366 then 1 else 0) + date - 1

/-- Embedding of `MakeDate(day, time)`. -/
def MakeDate (day time : Int) : Int := day * msPerDay + time

/-- Embedding of `TimeClip(time)`: `none` stands for `NaN`, the time value of an invalid date. -/
def TimeClip (time : Int) : Option Int :=
  if time.natAbs > 8640000000000000 then none else some time

/-- The time zone of the host: `LocalTZA(t, isUTC)`, the offset of local time in
milliseconds, from a UTC time value (`isUTC` true) or from a local one. -/
structure TimeZone where
  localTZA : Int → Bool → Int

/-- Embedding of `LocalTime(t)`. -/
def LocalTime (tz : TimeZone) (t : Int) : Int := t + tz.localTZA t true

/-- Embedding of `UTC(t)`. -/
def UTC (tz : TimeZone) (t : Int) : Int := t - tz.localTZA t false

/-- Embedding of `Date.prototype.getDate` on a valid date. -/
def getDate (tz : TimeZone) (t : Int) : Int := DateFromTime (LocalTime tz t)

/-- Embedding of `Date.prototype.setDate(dt)` on a valid date: the new time value. -/
def setDate (tz : TimeZone) (t : Int) (dt : Int) : Option Int :=
  let lt := LocalTime tz t
  let newDate := MakeDate (MakeDay (YearFromTime lt) (MonthFromTime lt) dt) (TimeWithinDay lt)
  TimeClip (UTC tz newDate)

/-- A number written with at least `width` decimal digits. -/
def padDigits (width : Nat) (n : Nat) : JsString :=
  let ds := decimalDigits 32 n []
  List.replicate (width - ds.length) 0x30 ++ ds

/-- The year of an ISO date-time string: four digits, or a sign and six digits
outside 0 to 9999. -/
def isoYear (y : Int) : JsString :=
  if 0 ≤ y ∧ y ≤ 9999 then padDigits 4 y.natAbs
  else if y < 0 then 0x2D :: padDigits 6 y.natAbs
  else 0x2B :: padDigits 6 y.natAbs

/-- Embedding of `Date.prototype.toISOString`: `YYYY-MM-DDTHH:mm:ss.sssZ` in UTC; a `RangeError`
on an invalid date. -/
def toISOString (date : Option Int) : Except JsError JsString :=
  match date with
  | none => .error .rangeError
  | some t =>
    .ok (isoYear (YearFromTime t) ++ 0x2D :: padDigits 2 (MonthFromTime t + 1).natAbs ++
      0x2D :: padDigits 2 (DateFromTime t).natAbs ++ 0x54 :: padDigits 2 (HourFromTime t).natAbs ++
      0x3A :: padDigits 2 (MinFromTime t).natAbs ++ 0x3A :: padDigits 2 (SecFromTime t).natAbs ++
      0x2E :: padDigits 3 (msFromTime t).natAbs ++ [0x5A])

/-- First element of `s.split(sep)` for a one-character separator: what precedes
its first occurrence. -/
def splitFirst (sep : Nat) (s : JsString) : JsString :=
  s.takeWhile (fun c => c != sep)

/-- Embedding of `generateDateId(date)`: the part of `date.toISOString()` before its first `T`. -/
def generateDateId (date : Option Int) : Except JsError JsString :=
  match toISOString date with
  | .error e => .error e
  | .ok iso => .ok (splitFirst 0x54 iso)

/-- What one pass of the loop of `renderWeeklySchedule` computes for a day. -/
structure DayEntry where
  dayName : JsString
  dateId : JsString
  isToday : Bool
  deriving DecidableEq

/-- Embedding of `WEEK_DAYS[date.getDay()]` as interpolated in the markup of the day. -/
def dayNameOf (tz : TimeZone) (date : Option Int) : JsString :=
  match date with
  | some t => templateValue WEEK_DAYS[(WeekDay (LocalTime tz t)).toNat]?
  | none => js "undefined"

/-- The body of the loop of `renderWeeklySchedule` at offset `i`, `today` being
the time value of `new Date()`. -/
def weekEntry (tz : TimeZone) (today : Int) (i : Nat) : Except JsError DayEntry :=
  let date := setDate tz today (getDate tz today + i)
  let dayName := dayNameOf tz date
  match generateDateId date with
  | .error e => .error e
  | .ok dateId => .ok { dayName := dayName, dateId := dateId, isToday := i == 0 }

/-- The loop `for (let i = 0; i < 7; i++)` of `renderWeeklySchedule`: the entries
computed from offset `i` on, `fuel` bounding the number of passes. -/
def weekLoop (tz : TimeZone) (today : Int) : Nat → Nat → Except JsError (List DayEntry)
  | 0, _ => .ok []
  | fuel + 1, i =>
    if i < 7 then
      match weekEntry tz today i with
      | .error e => .error e
      | .ok entry =>
        match weekLoop tz today fuel (i + 1) with
        | .error e => .error e
        | .ok entries => .ok (entry :: entries)
    else .ok []

/-- The seven day entries computed by `renderWeeklySchedule`. -/
def currentWeek (tz : TimeZone) (today : Int) : Except JsError (List DayEntry) :=
  weekLoop tz today 7 0

/-- A zone at a fixed offset from UTC, in milliseconds. -/
def fixedZone (offset : Int) : TimeZone := { localTZA := fun _ _ => offset }

/-- The offsets of America/New_York around its change of 10 March 2024 (day
19792): UTC-5 before 07:00 UTC, UTC-4 from then on; a local time is read with
UTC-5 before 03:00 local (a time skipped by the change takes the offset in force
before it) and with UTC-4 from then on. -/
def newYorkMarch2024 : TimeZone :=
  { localTZA := fun t isUTC =>
      if isUTC then (if t < 19792 * msPerDay + 7 * 3600000 then -5 * 3600000 else -4 * 3600000)
      else (if t < 19792 * msPerDay + 3 * 3600000 then -5 * 3600000 else -4 * 3600000) }

/-! ## Mutations as steps, and the states used in the examples -/

/-- A user intent that changes a task array. -/
inductive Op where
  | addGeneral (now : Int)
  | toggleGeneral (id : JsString)
  | deleteGeneral (id : JsString)
  | addDaily (now : Int) (dateId : JsString)
  | toggleDaily (id : JsString)
  | deleteDaily (id : JsString)

/-- Whether the operation works on the general list (otherwise on the schedule). -/
def Op.isGeneral : Op → Bool
  | .addGeneral _ => true
  | .toggleGeneral _ => true
  | .deleteGeneral _ => true
  | .addDaily _ _ => false
  | .toggleDaily _ => false
  | .deleteDaily _ => false

/-- The state after the event handler of an operation has run.  `addDailyTask`
raises its `TypeError` before it writes anything, so the state is then the one
before the call. -/
def step (op : Op) (s : State) : State :=
  match op with
  | .addGeneral now => addGeneralTask now s
  | .toggleGeneral id => toggleGeneralTask id s
  | .deleteGeneral id => deleteGeneralTask id s
  | .addDaily now dateId =>
    match addDailyTask now dateId s with
    | .ok s2 => s2
    | .error _ => s
  | .toggleDaily id => toggleDailyTask id s
  | .deleteDaily id => deleteDailyTask id s

/-- Storage key of the general list (`general` true) or of the schedule. -/
def keyOf (general : Bool) : JsString :=
  if general then GENERAL_TASKS_KEY else DAILY_TASKS_KEY

/-- The in-memory array of the general list (`general` true) or of the schedule. -/
def collectionOf (general : Bool) (s : State) : List Task :=
  if general then s.generalTasks else s.dailyTasks

/-- Memory and storage agree on a collection: `loadTasks` of its key returns the
in-memory array, by value. -/
def InSync (general : Bool) (s : State) : Prop :=
  loadTasks s.storage (keyOf general) = .ok (tasksToJson (collectionOf general s))

/-- The state of a first visit: nothing stored, no task, and a document with the
general input holding `generalText` and one day, `dateId`, whose input holds
`dayText` and whose list is empty. -/
def freshState (generalText dateId dayText : JsString) : State :=
  { generalTasks := []
    dailyTasks := []
    storage := fun _ => none
    generalInput := generalText
    dayInputs := fun k => if k = js "input-" ++ dateId then some dayText else none
    generalList := []
    dayLists := fun k => if k = js "list-" ++ dateId then some [] else none
    alerts := [] }

/-- A schedule with three tasks on two dates. -/
def sampleSchedule : List Task :=
  [{ id := js "1704881000000", text := js "Call Bob", completed := false,
     date := some (js "2024-01-10") },
   { id := js "1704881000001", text := js "Pay rent", completed := true,
     date := some (js "2024-01-11") },
   { id := js "1704881000002", text := js "Call Ann", completed := false,
     date := some (js "2024-01-10") }]

/-- The user types `text` in the general input. -/
def typeGeneral (text : JsString) (s : State) : State :=
  { s with generalInput := text }

/-- The user types `text` in the input of the day `dateId`, if the document has one. -/
def typeDay (dateId text : JsString) (s : State) : State :=
  match s.dayInputs (js "input-" ++ dateId) with
  | none => s
  | some _ => { s with dayInputs := setElem s.dayInputs (js "input-" ++ dateId) text }

/-! ## The JSON round trip -/

theorem hexVal_hexDigit (d : Nat) (h : d < 16) : hexVal (hexDigit d) = some d := by
  interval_cases d <;> rfl

theorem hex4_unicodeEscape (c : Nat) (h : c < 65536) :
    hex4 (hexDigit (c / 4096 % 16)) (hexDigit (c / 256 % 16)) (hexDigit (c / 16 % 16))
      (hexDigit (c % 16)) = some c := by
  have h1 := hexVal_hexDigit (c / 4096 % 16) (Nat.mod_lt _ (by decide))
  have h2 := hexVal_hexDigit (c / 256 % 16) (Nat.mod_lt _ (by decide))
  have h3 := hexVal_hexDigit (c / 16 % 16) (Nat.mod_lt _ (by decide))
  have h4 := hexVal_hexDigit (c % 16) (Nat.mod_lt _ (by decide))
  simp only [hex4, h1, h2, h3, h4, Option.some.injEq]
  omega

theorem parseStringBody_quote (tail acc : JsString) :
    parseStringBody (0x22 :: tail) acc = .ok (acc, tail) := by
  rw [parseStringBody.eq_def]; simp

theorem parseStringBody_plain (c : Nat) (tail acc : JsString) (h1 : c ≠ 0x22) (h2 : c ≠ 0x5C)
    (h3 : ¬ c < 0x20) :
    parseStringBody (c :: tail) acc = parseStringBody tail (acc ++ [c]) := by
  rw [parseStringBody.eq_def]; simp [h1, h2, h3]

theorem parseStringBody_escape (c : Nat) (tail acc : JsString) (h : c < 65536) :
    parseStringBody (unicodeEscape c ++ tail) acc = parseStringBody tail (acc ++ [c]) := by
  rw [parseStringBody.eq_def]; simp [unicodeEscape, hex4_unicodeEscape c h]

theorem parseStringBody_quoteUnit (c : Nat) (tail acc : JsString) :
    parseStringBody (quoteUnit c ++ tail) acc = parseStringBody tail (acc ++ [c]) := by
  unfold quoteUnit
  split_ifs with h1 h2 h3 h4 h5 h6 h7 h8 h9
  · subst h1; rw [parseStringBody.eq_def]; simp
  · subst h2; rw [parseStringBody.eq_def]; simp
  · subst h3; rw [parseStringBody.eq_def]; simp
  · subst h4; rw [parseStringBody.eq_def]; simp
  · subst h5; rw [parseStringBody.eq_def]; simp
  · subst h6; rw [parseStringBody.eq_def]; simp
  · subst h7; rw [parseStringBody.eq_def]; simp
  · exact parseStringBody_escape c tail acc (by omega)
  · refine parseStringBody_escape c tail acc ?_
    simp [isLeadingSurrogate, isTrailingSurrogate] at h9
    omega
  · exact parseStringBody_plain c tail acc h6 h7 h8

theorem parseStringBody_quoteBody (s : JsString) :
    ∀ (tail acc : JsString),
      parseStringBody (quoteBody s ++ 0x22 :: tail) acc = .ok (acc ++ s, tail) := by
  induction s using quoteBody.induct with
  | case1 => intro tail acc; simp [quoteBody, parseStringBody_quote]
  | case2 c => intro tail acc; simp [quoteBody, parseStringBody_quoteUnit, parseStringBody_quote]
  | case3 c d rest h ih =>
    intro tail acc
    simp only [quoteBody, h, if_true]
    simp [isLeadingSurrogate, isTrailingSurrogate] at h
    rw [List.cons_append, List.cons_append,
      parseStringBody_plain c _ _ (by omega) (by omega) (by omega),
      parseStringBody_plain d _ _ (by omega) (by omega) (by omega), ih]
    simp
  | case4 c d rest h ih =>
    intro tail acc
    simp only [quoteBody, h]
    rw [if_neg (by simp), List.append_assoc, parseStringBody_quoteUnit, ih]
    simp

theorem skipWs_cons (c : Nat) (r : JsString) (h : isJsonWs c = false) :
    skipWs (c :: r) = c :: r := by
  simp [skipWs, List.dropWhile, h]

theorem parseValue_string (fuel : Nat) (s tail : JsString) :
    parseValue (fuel + 1) (quoteJSONString s ++ tail) = .ok (.str s, tail) := by
  rw [parseValue, quoteJSONString, List.cons_append, skipWs_cons _ _ (by decide)]
  simp [parseStringBody_quoteBody]

theorem parseValue_bool (fuel : Nat) (b : Bool) (tail : JsString) :
    parseValue (fuel + 1) (stringifyValue (.bool b) ++ tail) = .ok (.bool b, tail) := by
  have ht : js "true" = [116, 114, 117, 101] := by decide
  have hf : js "false" = [102, 97, 108, 115, 101] := by decide
  cases b
  · rw [parseValue, stringifyValue, hf, List.cons_append, skipWs_cons _ _ (by decide)]
    simp [stripLit, ht, hf]
  · rw [parseValue, stringifyValue, ht, List.cons_append, skipWs_cons _ _ (by decide)]
    simp [stripLit, ht]

theorem parseMembers_more (fuel : Nat) (acc : List (JsString × Json)) (k : JsString) (v : Json)
    (tail : JsString)
    (hv : ∀ tl, parseValue fuel (stringifyValue v ++ tl) = .ok (v, tl)) :
    parseMembers (fuel + 1) acc (quoteJSONString k ++ 0x3A :: (stringifyValue v ++ 0x2C :: tail))
      = parseMembers fuel (setMember k v acc) tail := by
  rw [parseMembers, quoteJSONString, List.cons_append, skipWs_cons _ _ (by decide)]
  simp only [List.append_assoc, List.singleton_append, if_true, parseStringBody_quoteBody,
    List.nil_append]
  rw [skipWs_cons _ _ (by decide)]
  simp only [if_true, hv]
  rw [skipWs_cons _ _ (by decide)]
  simp

theorem parseMembers_last (fuel : Nat) (acc : List (JsString × Json)) (k : JsString) (v : Json)
    (tail : JsString)
    (hv : ∀ tl, parseValue fuel (stringifyValue v ++ tl) = .ok (v, tl)) :
    parseMembers (fuel + 1) acc (quoteJSONString k ++ 0x3A :: (stringifyValue v ++ 0x7D :: tail))
      = .ok (.obj (setMember k v acc), tail) := by
  rw [parseMembers, quoteJSONString, List.cons_append, skipWs_cons _ _ (by decide)]
  simp only [List.append_assoc, List.singleton_append, if_true, parseStringBody_quoteBody,
    List.nil_append]
  rw [skipWs_cons _ _ (by decide)]
  simp only [if_true, hv]
  rw [skipWs_cons _ _ (by decide)]
  simp

theorem parseValue_str (fuel : Nat) (s tail : JsString) :
    parseValue (fuel + 1) (stringifyValue (.str s) ++ tail) = .ok (.str s, tail) := by
  rw [stringifyValue]; exact parseValue_string fuel s tail

theorem stringifyValue_obj (ms : List (JsString × Json)) :
    stringifyValue (.obj ms) = 0x7B :: (stringifyMembers ms ++ [0x7D]) := by
  rw [stringifyValue]

theorem stringifyValue_arr (items : List Json) :
    stringifyValue (.arr items) = 0x5B :: (stringifyItems items ++ [0x5D]) := by
  rw [stringifyValue]

theorem stringifyMembers_cons (k : JsString) (v : Json) (m : JsString × Json)
    (rest : List (JsString × Json)) :
    stringifyMembers ((k, v) :: m :: rest)
      = quoteJSONString k ++ 0x3A :: (stringifyValue v ++ 0x2C :: stringifyMembers (m :: rest)) := by
  rw [stringifyMembers]; simp

theorem stringifyMembers_single (k : JsString) (v : Json) :
    stringifyMembers [(k, v)] = quoteJSONString k ++ 0x3A :: stringifyValue v := by
  rw [stringifyMembers]

theorem quoteJSONString_head (k : JsString) (tail : JsString) :
    quoteJSONString k ++ tail = 0x22 :: (quoteBody k ++ 0x22 :: tail) := by
  simp [quoteJSONString]

theorem parseValue_task (fuel : Nat) (t : Task) (tail : JsString) :
    parseValue (fuel + 6) (stringifyValue t.toJson ++ tail) = .ok (t.toJson, tail) := by
  have k1 : js "id" ≠ js "text" := by decide
  have k2 : js "id" ≠ js "completed" := by decide
  have k3 : js "text" ≠ js "completed" := by decide
  have k4 : js "id" ≠ js "date" := by decide
  have k5 : js "text" ≠ js "date" := by decide
  have k6 : js "date" ≠ js "completed" := by decide
  unfold Task.toJson
  cases t.date with
  | none =>
    simp only [stringifyValue_obj, stringifyMembers_cons, stringifyMembers_single,
      List.append_assoc, List.cons_append, List.nil_append]
    rw [parseValue, skipWs_cons _ _ (by decide)]
    simp only [quoteJSONString_head (js "id"),
      skipWs_cons _ _ (show isJsonWs 0x22 = false by decide)]
    simp only [← quoteJSONString_head (js "id")]
    rw [if_pos trivial, if_neg (by decide),
      parseMembers_more _ _ _ _ _ (parseValue_str _ _),
      parseMembers_more _ _ _ _ _ (parseValue_str _ _),
      parseMembers_last _ _ _ _ _ (parseValue_bool _ _)]
    simp [setMember, k1, k2, k3]
  | some d =>
    simp only [stringifyValue_obj, stringifyMembers_cons, stringifyMembers_single,
      List.append_assoc, List.cons_append, List.nil_append]
    rw [parseValue, skipWs_cons _ _ (by decide)]
    simp only [quoteJSONString_head (js "id"),
      skipWs_cons _ _ (show isJsonWs 0x22 = false by decide)]
    simp only [← quoteJSONString_head (js "id")]
    rw [if_pos trivial, if_neg (by decide),
      parseMembers_more _ _ _ _ _ (parseValue_str _ _),
      parseMembers_more _ _ _ _ _ (parseValue_str _ _),
      parseMembers_more _ _ _ _ _ (parseValue_str _ _),
      parseMembers_last _ _ _ _ _ (parseValue_bool _ _)]
    simp [setMember, k1, k2, k3, k4, k5, k6]

theorem stringifyItems_single (v : Json) : stringifyItems [v] = stringifyValue v := by
  rw [stringifyItems]

theorem stringifyItems_cons (v w : Json) (rest : List Json) :
    stringifyItems (v :: w :: rest) = stringifyValue v ++ 0x2C :: stringifyItems (w :: rest) := by
  rw [stringifyItems]

theorem stringifyValue_task_head (t : Task) :
    ∃ r, stringifyValue t.toJson = 0x7B :: r := by
  unfold Task.toJson
  cases t.date <;> exact ⟨_, stringifyValue_obj _⟩

theorem stringifyItems_tasks_head (t : Task) (ts : List Task) :
    ∃ r, stringifyItems ((t :: ts).map Task.toJson) = 0x7B :: r := by
  obtain ⟨r, hr⟩ := stringifyValue_task_head t
  cases ts with
  | nil => exact ⟨r, by simp [stringifyItems_single, hr]⟩
  | cons u us =>
    refine ⟨r ++ 0x2C :: stringifyItems ((u :: us).map Task.toJson), ?_⟩
    simp only [List.map_cons, stringifyItems_cons, hr, List.cons_append]

theorem stringifyItems_tasks_length (ts : List Task) :
    2 * ts.length ≤ (stringifyItems (ts.map Task.toJson)).length := by
  induction ts with
  | nil => simp
  | cons t ts ih =>
    obtain ⟨r, hr⟩ := stringifyValue_task_head t
    have h2 : 2 ≤ (stringifyValue t.toJson).length := by
      unfold Task.toJson
      cases t.date <;> simp [stringifyValue_obj]
    cases ts with
    | nil => simpa [stringifyItems_single] using h2
    | cons u us =>
      simp only [List.map_cons, stringifyItems_cons, List.length_append, List.length_cons] at ih ⊢
      omega

theorem parseItems_tasks (ts : List Task) :
    ∀ (t : Task) (fuel : Nat) (acc : List Json) (tail : JsString),
      ts.length + 7 ≤ fuel →
      parseItems fuel acc (stringifyItems ((t :: ts).map Task.toJson) ++ 0x5D :: tail)
        = .ok (.arr (acc ++ (t :: ts).map Task.toJson), tail) := by
  induction ts with
  | nil =>
    intro t fuel acc tail hf
    obtain ⟨f, rfl⟩ : ∃ f, fuel = f + 6 + 1 := ⟨fuel - 7, by simp at hf; omega⟩
    rw [parseItems]
    simp only [List.map_cons, List.map_nil, stringifyItems_single, parseValue_task]
    rw [skipWs_cons _ _ (by decide)]
    simp
  | cons u us ih =>
    intro t fuel acc tail hf
    obtain ⟨f, rfl⟩ : ∃ f, fuel = f + 6 + 1 := ⟨fuel - 7, by simp at hf; omega⟩
    rw [parseItems]
    simp only [List.map_cons, stringifyItems_cons, List.append_assoc, List.cons_append,
      parseValue_task]
    rw [skipWs_cons _ _ (by decide)]
    simp only [if_true]
    have := ih u (f + 6) (acc ++ [t.toJson]) tail (by simp at hf ⊢; omega)
    simp only [List.map_cons] at this
    rw [this]
    simp

theorem parse_stringify_tasks (ts : List Task) :
    JSON.parse (JSON.stringify (tasksToJson ts)) = .ok (tasksToJson ts) := by
  unfold JSON.parse JSON.stringify tasksToJson
  cases ts with
  | nil =>
    simp only [List.map_nil, stringifyValue_arr, stringifyItems, List.nil_append]
    rw [show 2 * [0x5B, 0x5D].length + 2 = 5 + 1 by rfl, parseValue,
      skipWs_cons _ _ (by decide)]
    simp [skipWs, isJsonWs]
  | cons t ts =>
    have hlen := stringifyItems_tasks_length (t :: ts)
    obtain ⟨r, hr⟩ := stringifyItems_tasks_head t ts
    have hp := parseItems_tasks ts t
      (2 * (stringifyValue (.arr ((t :: ts).map Task.toJson))).length + 1) [] []
      (by
        rw [stringifyValue_arr]
        simp only [List.length_cons, List.length_append, List.length_nil] at hlen ⊢
        omega)
    rw [show 2 * (stringifyValue (.arr ((t :: ts).map Task.toJson))).length + 2
      = (2 * (stringifyValue (.arr ((t :: ts).map Task.toJson))).length + 1) + 1 by rfl,
      parseValue]
    generalize 2 * (stringifyValue (.arr ((t :: ts).map Task.toJson))).length + 1 = F at hp ⊢
    rw [stringifyValue_arr, skipWs_cons _ _ (by decide)]
    simp only [show ¬ ((0x5B : Nat) = 0x7B) by decide, if_false, if_true]
    rw [hr] at hp ⊢
    rw [List.cons_append, skipWs_cons _ _ (by decide)]
    simp only [show ¬ ((0x7B : Nat) = 0x5D) by decide, if_false]
    rw [List.cons_append] at hp
    rw [hp]
    simp [skipWs]

/-! ## Storage, trimming and the calendar -/

theorem trim_eq_nil_iff (s : JsString) : trim s = [] ↔ s.all isWhiteSpace = true := by
  unfold trim
  rw [List.reverse_eq_nil_iff]
  constructor
  · intro h
    by_contra hne
    simp only [List.all_eq_true, not_forall] at hne
    obtain ⟨c, hc, hcw⟩ := hne
    have h1 : s.dropWhile isWhiteSpace ≠ [] := by
      intro h0
      rw [List.dropWhile_eq_nil_iff] at h0
      exact hcw (h0 c hc)
    rw [List.dropWhile_eq_nil_iff] at h
    cases hd : s.dropWhile isWhiteSpace with
    | nil => exact h1 hd
    | cons x xs =>
      have hx : ¬ isWhiteSpace x = true := by
        have := List.head_dropWhile_not isWhiteSpace s h1
        simp only [hd, List.head_cons] at this
        simpa using this
      exact hx (h x (by simp [hd]))
  · intro h
    have : s.dropWhile isWhiteSpace = [] := by
      rw [List.dropWhile_eq_nil_iff]
      simpa using h
    simp [this]

theorem setItem_same (st : Storage) (k v : JsString) : setItem st k v k = some v := by
  simp [setItem]

theorem setItem_other (st : Storage) (k v k2 : JsString) (h : k2 ≠ k) :
    setItem st k v k2 = st k2 := by
  simp [setItem, h]

theorem stringify_tasks_ne_nil (ts : List Task) : JSON.stringify (tasksToJson ts) ≠ [] := by
  simp [JSON.stringify, tasksToJson, stringifyValue_arr]

theorem loadTasks_saveTasks (storage : Storage) (key : JsString) (ts : List Task) :
    loadTasks (saveTasks key ts storage) key = .ok (tasksToJson ts) := by
  simp only [loadTasks, saveTasks, setItem_same, stringify_tasks_ne_nil, if_false,
    parse_stringify_tasks]

theorem keys_distinct : DAILY_TASKS_KEY ≠ GENERAL_TASKS_KEY := by decide

theorem DayFromYear_step (y : Int) :
    DayFromYear (y + 1) = DayFromYear y + DaysInYear y := by
  unfold DayFromYear DaysInYear
  split_ifs <;> omega

theorem YearFromTime_spec (t : Int) :
    TimeFromYear (YearFromTime t) ≤ t ∧ t < TimeFromYear (YearFromTime t + 1) := by
  unfold YearFromTime
  dsimp only
  generalize hy : 1970 + Day t * 400 / 146097 = y0
  have hlo : DayFromYear (y0 - 1) * msPerDay ≤ t := by
    unfold DayFromYear msPerDay; unfold Day msPerDay at hy; omega
  have hhi : t < DayFromYear (y0 + 1 + 1) * msPerDay := by
    unfold DayFromYear msPerDay; unfold Day msPerDay at hy; omega
  have e : y0 - 1 + 1 = y0 := by omega
  unfold TimeFromYear
  split_ifs with h1 h2
  · rw [e]; unfold TimeFromYear at h1; constructor <;> linarith
  · unfold TimeFromYear at h2; constructor <;> linarith
  · unfold TimeFromYear at h1 h2; constructor <;> linarith

/-! ## The week loop -/

theorem weekEntry_isToday (tz : TimeZone) (today : Int) (i : Nat) (e : DayEntry)
    (h : weekEntry tz today i = .ok e) : e.isToday = (i == 0) := by
  unfold weekEntry at h
  dsimp only at h
  split at h
  · cases h
  · cases h; rfl

theorem weekLoop_zero (tz : TimeZone) (today : Int) (i : Nat) :
    weekLoop tz today 0 i = .ok [] := rfl

theorem weekLoop_succ (tz : TimeZone) (today : Int) (fuel i : Nat) :
    weekLoop tz today (fuel + 1) i =
      if i < 7 then
        match weekEntry tz today i with
        | .error e => .error e
        | .ok entry =>
          match weekLoop tz today fuel (i + 1) with
          | .error e => .error e
          | .ok entries => .ok (entry :: entries)
      else .ok [] := rfl

theorem weekLoop_shape (tz : TimeZone) (today : Int) :
    ∀ (fuel i : Nat) (es : List DayEntry), 7 ≤ fuel + i → weekLoop tz today fuel i = .ok es →
      es.length = 7 - i ∧ es.map (fun e => e.isToday) = (List.range' i (7 - i)).map (fun j => j == 0) := by
  intro fuel
  induction fuel with
  | zero =>
    intro i es hf h
    rw [weekLoop_zero] at h
    have hes : es = [] := (Except.ok.inj h).symm
    have h0 : 7 - i = 0 := by omega
    rw [hes, h0]
    exact ⟨rfl, rfl⟩
  | succ fuel ih =>
    intro i es hf h
    rw [weekLoop_succ] at h
    by_cases hi : i < 7
    · rw [if_pos hi] at h
      cases he : weekEntry tz today i with
      | error x => rw [he] at h; exact absurd h (by simp)
      | ok entry =>
        rw [he] at h
        cases hl : weekLoop tz today fuel (i + 1) with
        | error x => rw [hl] at h; exact absurd h (by simp)
        | ok entries =>
          rw [hl] at h
          have hes : es = entry :: entries := (Except.ok.inj h).symm
          subst hes
          obtain ⟨h1, h2⟩ := ih (i + 1) entries (by omega) hl
          have e7 : 7 - i = (7 - (i + 1)) + 1 := by omega
          constructor
          · simp only [List.length_cons, h1]; omega
          · rw [e7, List.range'_succ, List.map_cons, List.map_cons, h2,
              weekEntry_isToday tz today i entry he]
    · rw [if_neg hi] at h
      have hes : es = [] := (Except.ok.inj h).symm
      have h0 : 7 - i = 0 := by omega
      rw [hes, h0]
      exact ⟨rfl, rfl⟩

theorem currentWeek_shape (tz : TimeZone) (today : Int) (es : List DayEntry)
    (h : currentWeek tz today = .ok es) :
    es.length = 7 ∧
      es.map (fun e => e.isToday) = [true, false, false, false, false, false, false] := by
  have := weekLoop_shape tz today 7 0 es (by omega) h
  simpa using this

theorem week_in_fixed_zone_example :
    (currentWeek (fixedZone (-5 * 3600000)) 1710030600000).map
      (fun es => es.map (fun e => e.dateId))
      = .ok [js "2024-03-10", js "2024-03-11", js "2024-03-12", js "2024-03-13",
          js "2024-03-14", js "2024-03-15", js "2024-03-16"] := by
  rfl

/-! ## The task operations -/

theorem findIndexFrom_toggleAt (id : JsString) (l : List Task) :
    ∀ (n : Nat) (i : Int),
      findIndexFrom (fun t : Task => t.id == id) (toggleAt l n) i
        = findIndexFrom (fun t : Task => t.id == id) l i := by
  induction l with
  | nil => intro n i; rfl
  | cons t ts ih =>
    intro n i
    cases n with
    | zero => simp [toggleAt, findIndexFrom]
    | succ n => simp [toggleAt, findIndexFrom, ih]

theorem toggleAt_toggleAt (l : List Task) : ∀ n : Nat, toggleAt (toggleAt l n) n = l := by
  induction l with
  | nil => intro n; rfl
  | cons t ts ih =>
    intro n
    cases n with
    | zero => simp [toggleAt]
    | succ n => simp [toggleAt, ih]

theorem getElem?_toggleAt_isSome (l : List Task) :
    ∀ n : Nat, ((toggleAt l n)[n]?).isSome = (l[n]?).isSome := by
  induction l with
  | nil => intro n; rfl
  | cons t ts ih =>
    intro n
    cases n with
    | zero => simp [toggleAt]
    | succ n => simpa [toggleAt] using ih n

theorem findIndexFrom_none (p : Task → Bool) (l : List Task) (h : ∀ t ∈ l, p t = false) :
    ∀ i : Int, findIndexFrom p l i = -1 := by
  induction l with
  | nil => intro i; rfl
  | cons t ts ih =>
    intro i
    simp only [findIndexFrom, h t (List.mem_cons_self _ _)]
    exact ih (fun u hu => h u (List.mem_cons_of_mem _ hu)) (i + 1)

theorem findIndex_filter_ne (id : JsString) (l : List Task) :
    findIndex (fun t : Task => t.id == id) (l.filter (fun t => t.id != id)) = -1 := by
  apply findIndexFrom_none
  intro t ht
  simp only [List.mem_filter] at ht
  simpa using ht.2

theorem filter_filter_ne (id : JsString) (l : List Task) :
    (l.filter (fun t => t.id != id)).filter (fun t => t.id != id)
      = l.filter (fun t => t.id != id) := by
  simp [List.filter_filter]

theorem renderDaily_dailyTasks (d : Option JsString) (x : State) :
    (renderDailyTasksByDate d x).dailyTasks = x.dailyTasks := by
  unfold renderDailyTasksByDate
  dsimp only
  split <;> rfl

theorem renderDaily_generalTasks (d : Option JsString) (x : State) :
    (renderDailyTasksByDate d x).generalTasks = x.generalTasks := by
  unfold renderDailyTasksByDate
  dsimp only
  split <;> rfl

theorem renderDaily_storage (d : Option JsString) (x : State) :
    (renderDailyTasksByDate d x).storage = x.storage := by
  unfold renderDailyTasksByDate
  dsimp only
  split <;> rfl

/-- C2: an add whose text is empty or only white space changes neither task
array and writes nothing to storage; the general add shows the validation alert,
the schedule add returns silently with the whole state as it was. -/
theorem add_blank_text_changes_nothing (now : Int) (s : State) :
    (s.generalInput.all isWhiteSpace = true →
      (addGeneralTask now s).generalTasks = s.generalTasks ∧
      (addGeneralTask now s).dailyTasks = s.dailyTasks ∧
      (addGeneralTask now s).storage = s.storage ∧
      (addGeneralTask now s).alerts = s.alerts ++ [VALIDATION_MESSAGE]) ∧
    (∀ dateId value : JsString, s.dayInputs (js "input-" ++ dateId) = some value →
      value.all isWhiteSpace = true → addDailyTask now dateId s = .ok s) := by
  constructor
  · intro h
    have ht : trim s.generalInput = [] := (trim_eq_nil_iff _).2 h
    simp [addGeneralTask, ht]
  · intro dateId value hin h
    have ht : trim value = [] := (trim_eq_nil_iff _).2 h
    simp [addDailyTask, hin, ht]

theorem add_blank_text_changes_nothing_witness :
    (js "   ").all isWhiteSpace = true ∧ (js "").all isWhiteSpace = true ∧
    (addGeneralTask 5 (freshState (js "   ") (js "2024-01-10") (js ""))).generalTasks = [] ∧
    addDailyTask 5 (js "2024-01-10") (freshState (js "   ") (js "2024-01-10") (js ""))
      = .ok (freshState (js "   ") (js "2024-01-10") (js "")) :=
  ⟨by decide, by decide,
    ((add_blank_text_changes_nothing 5
      (freshState (js "   ") (js "2024-01-10") (js ""))).1 (by decide)).1,
    (add_blank_text_changes_nothing 5
      (freshState (js "   ") (js "2024-01-10") (js ""))).2 (js "2024-01-10") (js "")
      (by decide) (by decide)⟩

/-- C3: toggling the same id twice gives back the task array it started from, by
value and in the same order, in the general list and in the schedule; a toggle
never touches the other array. -/
theorem toggle_twice_restores (id : JsString) (s : State) :
    (toggleGeneralTask id (toggleGeneralTask id s)).generalTasks = s.generalTasks ∧
    (toggleDailyTask id (toggleDailyTask id s)).dailyTasks = s.dailyTasks ∧
    (toggleGeneralTask id s).dailyTasks = s.dailyTasks ∧
    (toggleDailyTask id s).generalTasks = s.generalTasks := by
  refine ⟨?_, ?_, ?_, ?_⟩
  · by_cases h : findIndex (fun t : Task => t.id == id) s.generalTasks > -1
    · have h2 : findIndex (fun t : Task => t.id == id)
          (toggleAt s.generalTasks
            (findIndex (fun t : Task => t.id == id) s.generalTasks).toNat) > -1 := by
        unfold findIndex at h ⊢
        rw [findIndexFrom_toggleAt]; exact h
      simp only [toggleGeneralTask, h, if_true, renderGeneralTasks, h2]
      unfold findIndex
      rw [findIndexFrom_toggleAt, toggleAt_toggleAt]
    · simp [toggleGeneralTask, h]
  · have hd := renderDaily_dailyTasks
    by_cases h : findIndex (fun t : Task => t.id == id) s.dailyTasks > -1
    · cases hg : s.dailyTasks[(findIndex (fun t : Task => t.id == id) s.dailyTasks).toNat]? with
      | none =>
        have e1 : toggleDailyTask id s = s := by
          simp only [toggleDailyTask, h, if_true, hg]
        rw [e1, e1]
      | some task =>
        have h2 : findIndex (fun t : Task => t.id == id)
            (toggleAt s.dailyTasks
              (findIndex (fun t : Task => t.id == id) s.dailyTasks).toNat)
            = findIndex (fun t : Task => t.id == id) s.dailyTasks := by
          unfold findIndex
          rw [findIndexFrom_toggleAt]
        have h3 := getElem?_toggleAt_isSome s.dailyTasks
          (findIndex (fun t : Task => t.id == id) s.dailyTasks).toNat
        rw [hg] at h3
        obtain ⟨task2, ht2⟩ := Option.isSome_iff_exists.1 h3
        have e1 : (toggleDailyTask id s).dailyTasks = toggleAt s.dailyTasks
            (findIndex (fun t : Task => t.id == id) s.dailyTasks).toNat := by
          simp only [toggleDailyTask, h, if_true, hg, hd]
        have e2 : (toggleDailyTask id (toggleDailyTask id s)).dailyTasks
            = toggleAt (toggleDailyTask id s).dailyTasks
              (findIndex (fun t : Task => t.id == id) (toggleDailyTask id s).dailyTasks).toNat := by
          generalize toggleDailyTask id s = s1 at e1
          have h4 : findIndex (fun t : Task => t.id == id) s1.dailyTasks > -1 := by
            rw [e1, h2]; exact h
          have h5 : s1.dailyTasks[(findIndex (fun t : Task => t.id == id) s1.dailyTasks).toNat]?
              = some task2 := by
            rw [e1, h2]; exact ht2
          simp only [toggleDailyTask, h4, if_true, h5, hd]
        rw [e2, e1, h2, toggleAt_toggleAt]
    · have e1 : toggleDailyTask id s = s := by
        simp only [toggleDailyTask, h, if_false]
      rw [e1, e1]
  · unfold toggleGeneralTask
    simp only [renderGeneralTasks]
    split <;> rfl
  · unfold toggleDailyTask
    simp only
    split
    · split
      · rfl
      · rw [renderDaily_generalTasks]
    · rfl

theorem saveTasks_idem (key : JsString) (ts : List Task) (st : Storage) :
    saveTasks key ts (saveTasks key ts st) = saveTasks key ts st := by
  funext k
  simp only [saveTasks, setItem]
  split <;> rfl

/-- C8: after a delete no task with that id is left (whatever the array held,
duplicate ids included), a following toggle of the id returns the state untouched,
and a second delete leaves the state as the first one left it; the functions are
total, so nothing is raised. -/
theorem delete_then_toggle_or_delete_is_noop (id : JsString) (s : State) :
    (∀ t ∈ (deleteGeneralTask id s).generalTasks, t.id ≠ id) ∧
    toggleGeneralTask id (deleteGeneralTask id s) = deleteGeneralTask id s ∧
    deleteGeneralTask id (deleteGeneralTask id s) = deleteGeneralTask id s ∧
    (∀ t ∈ (deleteDailyTask id s).dailyTasks, t.id ≠ id) ∧
    toggleDailyTask id (deleteDailyTask id s) = deleteDailyTask id s ∧
    deleteDailyTask id (deleteDailyTask id s) = deleteDailyTask id s := by
  have hgen : (deleteGeneralTask id s).generalTasks
      = s.generalTasks.filter (fun t => t.id != id) := rfl
  have hday : ∀ t ∈ (deleteDailyTask id s).dailyTasks, t.id ≠ id := by
    intro t ht
    unfold deleteDailyTask at ht
    cases hf : s.dailyTasks.find? (fun t => t.id == id) with
    | none =>
      rw [hf] at ht
      rw [List.find?_eq_none] at hf
      simpa using hf t ht
    | some u =>
      rw [hf] at ht
      simp only [renderDaily_dailyTasks, List.mem_filter] at ht
      simpa using ht.2
  have hfind : (deleteDailyTask id s).dailyTasks.find? (fun t => t.id == id) = none := by
    rw [List.find?_eq_none]
    intro t ht
    simpa using hday t ht
  refine ⟨?_, ?_, ?_, hday, ?_, ?_⟩
  · intro t ht
    rw [hgen, List.mem_filter] at ht
    simpa using ht.2
  · have h : ¬ findIndex (fun t : Task => t.id == id) (deleteGeneralTask id s).generalTasks
        > -1 := by
      rw [hgen, findIndex_filter_ne]; decide
    simp only [toggleGeneralTask, h, if_false]
  · simp only [deleteGeneralTask, renderGeneralTasks, filter_filter_ne, saveTasks_idem]
  · have h : ¬ findIndex (fun t : Task => t.id == id) (deleteDailyTask id s).dailyTasks
        > -1 := by
      have : findIndex (fun t : Task => t.id == id) (deleteDailyTask id s).dailyTasks = -1 := by
        apply findIndexFrom_none
        intro t ht
        simpa using hday t ht
      rw [this]; decide
    simp only [toggleDailyTask, h, if_false]
  · generalize deleteDailyTask id s = s1 at hfind
    simp only [deleteDailyTask, hfind]

theorem addDailyTask_ok (now : Int) (dateId value : JsString) (s : State)
    (hin : s.dayInputs (js "input-" ++ dateId) = some value) (h : trim value ≠ []) :
    addDailyTask now dateId s = .ok
      { renderDailyTasksByDate (some dateId)
          { s with
            dailyTasks := s.dailyTasks ++
              [{ id := numberToString now, text := trim value, completed := false,
                 date := some dateId }]
            storage := saveTasks DAILY_TASKS_KEY
              (s.dailyTasks ++
                [{ id := numberToString now, text := trim value, completed := false,
                   date := some dateId }]) s.storage } with
        dayInputs := setElem
          (renderDailyTasksByDate (some dateId)
            { s with
              dailyTasks := s.dailyTasks ++
                [{ id := numberToString now, text := trim value, completed := false,
                   date := some dateId }]
              storage := saveTasks DAILY_TASKS_KEY
                (s.dailyTasks ++
                  [{ id := numberToString now, text := trim value, completed := false,
                     date := some dateId }]) s.storage }).dayInputs
          (js "input-" ++ dateId) [] } := by
  simp only [addDailyTask, hin, h, if_false]

/-- C10: an add with text that is not blank keeps the old array, in order, and
puts exactly one task after it, with the trimmed text and `completed` false; the
schedule add stamps it with the date it was called for, whatever that string is,
so the new task joins the bucket of that date and no other bucket changes. -/
theorem add_appends_one_task (now : Int) (s : State) :
    (trim s.generalInput ≠ [] →
      (addGeneralTask now s).generalTasks = s.generalTasks ++
        [{ id := numberToString now, text := trim s.generalInput, completed := false,
           date := none }]) ∧
    (∀ dateId value : JsString, s.dayInputs (js "input-" ++ dateId) = some value →
      trim value ≠ [] →
      ∃ s2, addDailyTask now dateId s = .ok s2 ∧
        s2.dailyTasks = s.dailyTasks ++
          [{ id := numberToString now, text := trim value, completed := false,
             date := some dateId }] ∧
        ∀ d : JsString, tasksForDay s2.dailyTasks (some d) =
          tasksForDay s.dailyTasks (some d) ++
            (if d = dateId then
              [{ id := numberToString now, text := trim value, completed := false,
                 date := some dateId }]
             else [])) := by
  constructor
  · intro h
    simp [addGeneralTask, h, renderGeneralTasks]
  · intro dateId value hin h
    refine ⟨_, addDailyTask_ok now dateId value s hin h, ?_, ?_⟩
    · simp only [renderDaily_dailyTasks]
    · intro d
      simp only [renderDaily_dailyTasks, tasksForDay, List.filter_append]
      by_cases hd : d = dateId
      · subst hd; simp
      · have : dateId ≠ d := fun e => hd e.symm
        simp [hd, this]

theorem add_appends_one_task_witness :
    trim (js " Buy milk ") ≠ [] ∧ trim (js "Call Bob") ≠ [] ∧
    (addGeneralTask 1704881000000
      (freshState (js " Buy milk ") (js "2024-01-10") (js "Call Bob"))).generalTasks
      = [{ id := js "1704881000000", text := js "Buy milk", completed := false, date := none }] ∧
    ∃ s2, addDailyTask 1704881000000 (js "2024-01-10")
        (freshState (js " Buy milk ") (js "2024-01-10") (js "Call Bob")) = .ok s2 ∧
      tasksForDay s2.dailyTasks (some (js "2024-01-10"))
        = [{ id := js "1704881000000", text := js "Call Bob", completed := false,
             date := some (js "2024-01-10") }] ∧
      tasksForDay s2.dailyTasks (some (js "2024-01-11")) = [] := by
  have h := add_appends_one_task 1704881000000
    (freshState (js " Buy milk ") (js "2024-01-10") (js "Call Bob"))
  refine ⟨by decide, by decide, ?_, ?_⟩
  · rw [h.1 (by decide)]; decide
  · obtain ⟨s2, h1, _, h3⟩ := h.2 (js "2024-01-10") (js "Call Bob") (by decide) (by decide)
    refine ⟨s2, h1, ?_, ?_⟩
    · rw [h3]; decide
    · rw [h3]; decide

theorem buckets_perm (ds : List JsString) :
    ∀ ts : List Task, ds.Nodup → (∀ t ∈ ts, ∃ d ∈ ds, t.date = some d) →
      ((ds.map (fun d => tasksForDay ts (some d))).flatten).Perm ts := by
  induction ds with
  | nil =>
    intro ts _ h
    cases ts with
    | nil => simp
    | cons t ts =>
      obtain ⟨d, hd, _⟩ := h t (List.mem_cons_self _ _)
      simp at hd
  | cons d ds ih =>
    intro ts hnd h
    rw [List.nodup_cons] at hnd
    have hrest : ds.map (fun d2 => tasksForDay ts (some d2))
        = ds.map (fun d2 => tasksForDay (ts.filter (fun t => !(t.date == some d))) (some d2)) := by
      apply List.map_congr_left
      intro d2 hd2
      have hne : d2 ≠ d := fun e => hnd.1 (e ▸ hd2)
      simp only [tasksForDay, List.filter_filter]
      apply List.filter_congr
      intro t _
      by_cases ht : t.date = some d2
      · simp [ht, hne]
      · simp [ht]
    have ih2 := ih (ts.filter (fun t => !(t.date == some d))) hnd.2 (by
      intro t ht
      rw [List.mem_filter] at ht
      obtain ⟨d2, hd2, hdate⟩ := h t ht.1
      rcases List.mem_cons.1 hd2 with e | e
      · subst e; simp [hdate] at ht
      · exact ⟨d2, e, hdate⟩)
    rw [List.map_cons, List.flatten_cons, hrest]
    exact (List.Perm.append_left _ ih2).trans (List.filter_append_perm _ ts)

/-- C6: on a date-keyed array the filter of `renderDailyTasksByDate` keeps exactly
the tasks of the asked date, in the order and number in which the array holds
them, and the buckets of the distinct dates present, put end to end, hold every
task of the array exactly once, no task being in the buckets of two dates. -/
theorem tasksForDay_buckets (ts : List Task) (dateId : JsString)
    (hkeyed : ∀ t ∈ ts, t.date ≠ none) :
    (tasksForDay ts (some dateId)).Sublist ts ∧
    (∀ t, t ∈ tasksForDay ts (some dateId) ↔ (t ∈ ts ∧ t.date = some dateId)) ∧
    (∀ t, t.date = some dateId → (tasksForDay ts (some dateId)).count t = ts.count t) ∧
    (((ts.filterMap (fun t => t.date)).dedup.map
      (fun d => tasksForDay ts (some d))).flatten).Perm ts ∧
    (∀ (d1 d2 : JsString) (t : Task), d1 ≠ d2 → t ∈ tasksForDay ts (some d1) →
      t ∉ tasksForDay ts (some d2)) := by
  refine ⟨List.filter_sublist _, ?_, ?_, ?_, ?_⟩
  · intro t
    simp [tasksForDay, List.mem_filter]
  · intro t ht
    unfold tasksForDay
    rw [List.count_filter]
    simp [ht]
  · apply buckets_perm _ ts (List.nodup_dedup _)
    intro t ht
    cases hd : t.date with
    | none => exact absurd hd (hkeyed t ht)
    | some d => exact ⟨d, List.mem_dedup.2 (List.mem_filterMap.2 ⟨t, ht, hd⟩), rfl⟩
  · intro d1 d2 t hne h1 h2
    simp only [tasksForDay, List.mem_filter, beq_iff_eq] at h1 h2
    rw [h1.2] at h2
    exact hne (Option.some.inj h2.2)

theorem tasksForDay_buckets_witness :
    sampleSchedule.all (fun t => t.date.isSome) = true ∧
    (((sampleSchedule.filterMap (fun t => t.date)).dedup.map
      (fun d => tasksForDay sampleSchedule (some d))).flatten).Perm sampleSchedule ∧
    (tasksForDay sampleSchedule (some (js "2024-01-10"))).map (fun t => t.text)
      = [js "Call Bob", js "Call Ann"] :=
  ⟨by decide,
    (tasksForDay_buckets sampleSchedule (js "2024-01-10") (by decide)).2.2.2.1,
    by decide⟩

/-- C1 (the code at the failing input): two adds that read the same `Date.now()`
millisecond give two tasks with one id, in the general list and in the schedule
alike, although the ids were pairwise distinct before the second add. -/
theorem add_same_millisecond_repeats_id :
    ((addGeneralTask 1704881000000
        (freshState (js "Buy milk") (js "2024-01-10") (js "Call Bob"))).generalTasks.map
      (fun t => t.id)).Nodup ∧
    (addGeneralTask 1704881000000 (typeGeneral (js "Buy eggs")
        (addGeneralTask 1704881000000
          (freshState (js "Buy milk") (js "2024-01-10") (js "Call Bob"))))).generalTasks
      = [{ id := js "1704881000000", text := js "Buy milk", completed := false, date := none },
         { id := js "1704881000000", text := js "Buy eggs", completed := false, date := none }] ∧
    ((addDailyTask 1704881000000 (js "2024-01-10")
        (freshState (js "Buy milk") (js "2024-01-10") (js "Call Bob"))).bind
      (fun s1 => addDailyTask 1704881000000 (js "2024-01-10")
        (typeDay (js "2024-01-10") (js "Call Ann") s1))).map
      (fun s2 => s2.dailyTasks.map (fun t => t.id))
      = .ok [js "1704881000000", js "1704881000000"] := by
  refine ⟨by decide, by decide, by rfl⟩

/-- C7 (the code at the failing input): at 19:30 local time on 9 March 2024 in New
York, the evening before the clocks go forward, the loop gives seven entries but
offsets 0 and 1 both get the date id 2024-03-10, and "today", a Saturday, is
filed under the id of the Sunday. -/
theorem week_repeats_date_id_across_clock_change :
    currentWeek newYorkMarch2024 1710030600000 = .ok
      [{ dayName := js "Saturday", dateId := js "2024-03-10", isToday := true },
       { dayName := js "Sunday", dateId := js "2024-03-10", isToday := false },
       { dayName := js "Monday", dateId := js "2024-03-11", isToday := false },
       { dayName := js "Tuesday", dateId := js "2024-03-12", isToday := false },
       { dayName := js "Wednesday", dateId := js "2024-03-13", isToday := false },
       { dayName := js "Thursday", dateId := js "2024-03-14", isToday := false },
       { dayName := js "Friday", dateId := js "2024-03-15", isToday := false }] := by
  rfl

theorem Task.toJson_injective (t u : Task) (h : t.toJson = u.toJson) : t = u := by
  obtain ⟨i1, x1, c1, d1⟩ := t
  obtain ⟨i2, x2, c2, d2⟩ := u
  have kd : js "date" ≠ js "completed" := by decide
  cases d1 <;> cases d2 <;> simp [Task.toJson, kd, kd.symm] at h ⊢
  · exact h
  · exact ⟨h.1, h.2.1, h.2.2.2, h.2.2.1⟩

theorem tasksToJson_injective (ts us : List Task) (h : tasksToJson ts = tasksToJson us) :
    ts = us := by
  simp only [tasksToJson, Json.arr.injEq] at h
  exact List.map_injective_iff.2 (fun a b hab => Task.toJson_injective a b hab) h

/-- C4: for every task array and every key, `saveTasks` followed by `loadTasks`
returns the array that was saved, by value: the same tasks with the same `id`,
`text`, `completed` and, where present, `date`, in the same order; no other task
array has that value. -/
theorem save_then_load_round_trip (storage : Storage) (key : JsString) (ts : List Task) :
    loadTasks (saveTasks key ts storage) key = .ok (tasksToJson ts) ∧
    (∀ us : List Task, loadTasks (saveTasks key ts storage) key = .ok (tasksToJson us) →
      us = ts) := by
  refine ⟨loadTasks_saveTasks storage key ts, ?_⟩
  intro us h
  rw [loadTasks_saveTasks] at h
  exact (tasksToJson_injective ts us (Except.ok.inj h)).symm

theorem inSync_general_of_save (s x : State)
    (hs : x.storage = saveTasks GENERAL_TASKS_KEY x.generalTasks s.storage)
    (hd : x.dailyTasks = s.dailyTasks) :
    InSync true x ∧ x.storage (keyOf false) = s.storage (keyOf false) ∧
      collectionOf false x = collectionOf false s := by
  refine ⟨?_, ?_, ?_⟩
  · simp only [InSync, keyOf, collectionOf, if_true, hs, loadTasks_saveTasks]
  · simp [keyOf, hs, saveTasks, setItem_other _ _ _ _ keys_distinct]
  · simp [collectionOf, hd]

theorem inSync_daily_of_save (s x : State)
    (hs : x.storage = saveTasks DAILY_TASKS_KEY x.dailyTasks s.storage)
    (hd : x.generalTasks = s.generalTasks) :
    InSync false x ∧ x.storage (keyOf true) = s.storage (keyOf true) ∧
      collectionOf true x = collectionOf true s := by
  refine ⟨?_, ?_, ?_⟩
  · simp only [InSync, keyOf, collectionOf, Bool.false_eq_true, if_false, hs,
      loadTasks_saveTasks]
  · simp [keyOf, hs, saveTasks, setItem_other _ _ _ _ keys_distinct.symm]
  · simp [collectionOf, hd]

/-- C9: if memory and storage agree on a collection before one of its mutations
(add, toggle or delete, carried out or not), they agree on it after: `loadTasks`
of its key returns the current in-memory array; and the mutation leaves the blob
and the array of the other collection as they were, so that collection stays in
agreement too if it was. -/
theorem mutation_keeps_memory_and_storage_in_sync (op : Op) (s : State)
    (h : InSync op.isGeneral s) :
    InSync op.isGeneral (step op s) ∧
    (step op s).storage (keyOf (!op.isGeneral)) = s.storage (keyOf (!op.isGeneral)) ∧
    collectionOf (!op.isGeneral) (step op s) = collectionOf (!op.isGeneral) s ∧
    (InSync (!op.isGeneral) s → InSync (!op.isGeneral) (step op s)) := by
  suffices hmain : InSync op.isGeneral (step op s) ∧
      (step op s).storage (keyOf (!op.isGeneral)) = s.storage (keyOf (!op.isGeneral)) ∧
      collectionOf (!op.isGeneral) (step op s) = collectionOf (!op.isGeneral) s by
    refine ⟨hmain.1, hmain.2.1, hmain.2.2, ?_⟩
    intro ho
    unfold InSync loadTasks at ho ⊢
    rw [hmain.2.1, hmain.2.2]
    exact ho
  cases op with
  | addGeneral now =>
    simp only [Op.isGeneral, step, Bool.not_true] at h ⊢
    unfold addGeneralTask
    dsimp only
    split
    · exact ⟨h, rfl, rfl⟩
    · exact inSync_general_of_save s _ rfl rfl
  | toggleGeneral id =>
    simp only [Op.isGeneral, step, Bool.not_true] at h ⊢
    unfold toggleGeneralTask
    dsimp only
    split
    · exact inSync_general_of_save s _ rfl rfl
    · exact ⟨h, rfl, rfl⟩
  | deleteGeneral id =>
    simp only [Op.isGeneral, step, Bool.not_true] at h ⊢
    exact inSync_general_of_save s _ rfl rfl
  | addDaily now dateId =>
    simp only [Op.isGeneral, step, Bool.not_false] at h ⊢
    cases hin : s.dayInputs (js "input-" ++ dateId) with
    | none =>
      have e : addDailyTask now dateId s = .error .typeError := by
        simp only [addDailyTask, hin]
      rw [e]
      exact ⟨h, rfl, rfl⟩
    | some value =>
      by_cases hb : trim value = []
      · have e : addDailyTask now dateId s = .ok s := by
          simp only [addDailyTask, hin, hb, if_true]
        rw [e]
        exact ⟨h, rfl, rfl⟩
      · rw [addDailyTask_ok now dateId value s hin hb]
        exact inSync_daily_of_save s _
          (by rw [renderDaily_storage, renderDaily_dailyTasks])
          (by rw [renderDaily_generalTasks])
  | toggleDaily id =>
    simp only [Op.isGeneral, step, Bool.not_false] at h ⊢
    unfold toggleDailyTask
    dsimp only
    split
    · split
      · exact ⟨h, rfl, rfl⟩
      · exact inSync_daily_of_save s _
          (by rw [renderDaily_storage, renderDaily_dailyTasks])
          (by rw [renderDaily_generalTasks])
    · exact ⟨h, rfl, rfl⟩
  | deleteDaily id =>
    simp only [Op.isGeneral, step, Bool.not_false] at h ⊢
    unfold deleteDailyTask
    split
    · exact ⟨h, rfl, rfl⟩
    · exact inSync_daily_of_save s _
        (by rw [renderDaily_storage, renderDaily_dailyTasks])
        (by rw [renderDaily_generalTasks])

theorem mutation_keeps_memory_and_storage_in_sync_witness :
    InSync true (freshState (js "Buy milk") (js "2024-01-10") (js "")) ∧
    InSync true (step (.addGeneral 1704881000000)
      (freshState (js "Buy milk") (js "2024-01-10") (js ""))) ∧
    (step (.addGeneral 1704881000000)
      (freshState (js "Buy milk") (js "2024-01-10") (js ""))).storage DAILY_TASKS_KEY = none :=
  ⟨rfl,
    (mutation_keeps_memory_and_storage_in_sync (.addGeneral 1704881000000)
      (freshState (js "Buy milk") (js "2024-01-10") (js "")) rfl).1,
    (mutation_keeps_memory_and_storage_in_sync (.addGeneral 1704881000000)
      (freshState (js "Buy milk") (js "2024-01-10") (js "")) rfl).2.1⟩

end EmmaTask
